import Mathlib

/-!
# Verification of the `drift_l4` BPF dataplane (`src/internal/drift/bpf/drift_l4.c`)

Shallow embedding of the tc-ingress L4 redirection program: a frame is a list
of bytes, the BPF portmap is a function from keys to optional values, and the
kernel checksum/store helpers are modelled as explicit frame transformers.
Helper calls may fail in the kernel (e.g. `skb_ensure_writable` failing); a
fault oracle `Faults : Nat → Bool` tells, per call site, whether that helper
call fails.  A failing helper performs no write, and the C code then
short-circuits with `return TC_ACT_OK`.

Checksum helpers (`bpf_l3_csum_replace`, `bpf_l4_csum_replace` with 2- and
4-byte replacement) follow the kernel's `csum_replace4` /
`inet_proto_csum_replace2` arithmetic, i.e. the RFC 1624 incremental
one's-complement update `HC := ~(~HC + ~m + m')`, a 32-bit operand counting as
its two 16-bit halves.  One's-complement verification ("recompute from scratch
and check") is expressed as: the plain sum of all 16-bit words of the covered
region (checksum field included) is a nonzero multiple of 65535.
-/

namespace DriftL4

/-! ## Frames: byte-level model of the `__sk_buff` data area -/

/-- A frame is the byte sequence between `skb->data` and `skb->data_end`. -/
abbrev Frame := List Nat

/-- Read one byte; reads past the end yield 0 (never reachable under the
bounds checks the program performs). -/
def byte (f : Frame) (i : Nat) : Nat := f.getD i 0

/-- Read a 16-bit big-endian (network order) field at byte offset `i`. -/
def read16 (f : Frame) (i : Nat) : Nat := byte f i * 256 + byte f (i + 1)

/-- Read a 32-bit big-endian (network order) field at byte offset `i`. -/
def read32 (f : Frame) (i : Nat) : Nat := read16 f i * 65536 + read16 f (i + 2)

/-- Store a 16-bit value big-endian at byte offset `i`. -/
def write16 (f : Frame) (i v : Nat) : Frame := (f.set i (v / 256)).set (i + 1) (v % 256)

/-- Store a 32-bit value big-endian at byte offset `i`. -/
def write32 (f : Frame) (i v : Nat) : Frame :=
  write16 (write16 f i (v / 65536)) (i + 2) (v % 65536)

/-- Every byte of the frame is an actual byte value. -/
def Wf (f : Frame) : Prop := ∀ b ∈ f, b < 256

instance (f : Frame) : Decidable (Wf f) := by unfold Wf; infer_instance

/-! ## One's-complement checksum arithmetic -/

/-- End-around-carry folding step, with explicit fuel so that the kernel can
evaluate it; each step strictly decreases the argument, so `fuel = n` always
suffices. -/
def fold1Aux : Nat → Nat → Nat
  | 0, n => n
  | fuel + 1, n => if n < 65536 then n else fold1Aux fuel (n / 65536 + n % 65536)

/-- End-around-carry fold of a sum down to 16 bits, as in the Internet
checksum algorithm (RFC 1071). -/
def fold1 (n : Nat) : Nat := fold1Aux n n

/-- 16-bit one's complement (bitwise NOT) of a 16-bit quantity. -/
def comp16 (x : Nat) : Nat := 65535 - x % 65536

/-- The kernel's `inet_proto_csum_replace2` / `csum_replace2` arithmetic used
by `bpf_l4_csum_replace(..., old, new, 2)`: RFC 1624 incremental update of the
16-bit checksum `check` when a 16-bit field changes from `oldv` to `newv`.
`BPF_F_PSEUDO_HDR` only affects offload bookkeeping, not the arithmetic. -/
def csum_replace2 (check oldv newv : Nat) : Nat :=
  comp16 (fold1 (comp16 check + comp16 oldv + newv % 65536))

/-- The kernel's `csum_replace4` / `inet_proto_csum_replace4` arithmetic used
by `bpf_l3_csum_replace` / `bpf_l4_csum_replace(..., old, new, 4)`: the 32-bit
operands enter the one's-complement sum as their two 16-bit halves. -/
def csum_replace4 (check oldv newv : Nat) : Nat :=
  comp16 (fold1 (comp16 check + comp16 (oldv / 65536) + comp16 (oldv % 65536) +
    newv / 65536 % 65536 + newv % 65536))

/-! ## From-scratch checksum verification -/

/-- Sum of `k` 16-bit big-endian words starting at byte offset `a`. -/
def wsum (f : Frame) (a : Nat) : Nat → Nat
  | 0 => 0
  | k + 1 => read16 f a + wsum f (a + 2) k

/-- Internet-checksum word sum of the `n` bytes starting at offset `a`; an odd
trailing byte is padded with a zero byte, as the checksum algorithm demands. -/
def csumRegion (f : Frame) (a n : Nat) : Nat :=
  wsum f a (n / 2) + (if n % 2 = 1 then byte f (a + 2 * (n / 2)) * 256 else 0)

/-- A one's-complement checksum verifies (receiver-style: the one's-complement
sum of all covered words, checksum field included, is 0xFFFF) iff the plain
word sum is a nonzero multiple of 65535. -/
def ValidSum (s : Nat) : Prop := s % 65535 = 0 ∧ s ≠ 0

instance (s : Nat) : Decidable (ValidSum s) := by unfold ValidSum; infer_instance

/-- Word sum of the IPv4 header (at offset 14, `IHL` 32-bit words, i.e.
`2*IHL` 16-bit words), checksum field included. -/
def ipHeaderSum (f : Frame) : Nat := wsum f 14 (byte f 14 % 16 * 2)

/-- The IPv4 header checksum of the frame verifies when recomputed from
scratch over the header. -/
def ipChecksumOk (f : Frame) : Prop := ValidSum (ipHeaderSum f)

/-- Word sum of the TCP pseudo-header (source/destination addresses, the
zero-padded protocol byte, the TCP length `tot_len - IHL*4`) plus the TCP
segment itself, checksum field included. -/
def tcpTotalSum (f : Frame) : Nat :=
  wsum f 26 4 + byte f 23 + (read16 f 16 - byte f 14 % 16 * 4) +
    csumRegion f (14 + byte f 14 % 16 * 4) (read16 f 16 - byte f 14 % 16 * 4)

/-- The TCP checksum of the frame verifies when recomputed from scratch over
the pseudo-header and the segment. -/
def tcpChecksumOk (f : Frame) : Prop := ValidSum (tcpTotalSum f)

instance (f : Frame) : Decidable (ipChecksumOk f) := by unfold ipChecksumOk; infer_instance

instance (f : Frame) : Decidable (tcpChecksumOk f) := by unfold tcpChecksumOk; infer_instance

/-! ## The portmap and the BPF program -/

/-- `struct portmap_key` of `drift_l4.c`: protocol byte, an explicit padding
byte, and the destination port (network order). -/
structure portmap_key where
  proto : Nat
  pad : Nat
  port : Nat
deriving DecidableEq

/-- `struct portmap_value` of `drift_l4.c`: rewrite target address and port
(network order); the trailing `pad` field never influences behaviour and is
omitted. -/
structure portmap_value where
  dst_ip : Nat
  dst_port : Nat
deriving DecidableEq

/-- The `portmap` BPF hash map: key-indexed optional values.  Contents are
owned by the control plane; the dataplane only calls `bpf_map_lookup_elem`. -/
def Portmap := portmap_key → Option portmap_value

/-- Fault oracle for the kernel helper calls of one invocation: `fl i = true`
means the `i`-th helper call site fails (returns nonzero, writing nothing).
Sites: 0,1 = the two `bpf_l4_csum_replace`; 2 = `bpf_l3_csum_replace`;
3,4 = the two `bpf_skb_store_bytes`. -/
abbrev Faults := Nat → Bool

/-- `TC_ACT_OK`: let the frame continue up the stack. -/
def TC_ACT_OK : Nat := 0

/-- The common tail of `rewrite_tcp` and `rewrite_udp`:
`bpf_l3_csum_replace` on the IPv4 header checksum (offset `l3_off + 10`),
then `bpf_skb_store_bytes` of the new destination port (offset `l4_off + 2`)
and of the new destination address (offset `l3_off + 16`), each call
short-circuiting the whole rewrite on failure. -/
def rewrite_l3_and_store (fl : Faults) (f : Frame)
    (old_ip new_ip new_port l3_off l4_off : Nat) : Frame :=
  if fl 2 then f else
  let f3 := write16 f (l3_off + 10) (csum_replace4 (read16 f (l3_off + 10)) old_ip new_ip)
  if fl 3 then f3 else
  let f4 := write16 f3 (l4_off + 2) new_port
  if fl 4 then f4 else
  write32 f4 (l3_off + 16) new_ip

/-- `rewrite_tcp` of `drift_l4.c`: two incremental updates of the TCP checksum
(offset `l4_off + 16`) — one for the port change, one for the pseudo-header
address change — then the common l3-checksum/store tail.  The old port and old
address are read from the frame before any write. -/
def rewrite_tcp (fl : Faults) (f : Frame) (new_ip new_port l3_off l4_off : Nat) : Frame :=
  let old_port := read16 f (l4_off + 2)
  let old_ip := read32 f (l3_off + 16)
  if fl 0 then f else
  let f1 := write16 f (l4_off + 16) (csum_replace2 (read16 f (l4_off + 16)) old_port new_port)
  if fl 1 then f1 else
  let f2 := write16 f1 (l4_off + 16) (csum_replace4 (read16 f1 (l4_off + 16)) old_ip new_ip)
  rewrite_l3_and_store fl f2 old_ip new_ip new_port l3_off l4_off

/-- `rewrite_udp` of `drift_l4.c`: like `rewrite_tcp` but on the UDP checksum
(offset `l4_off + 6`), and the two incremental checksum updates are skipped
entirely when the stored UDP checksum is 0 ("checksum disabled"). -/
def rewrite_udp (fl : Faults) (f : Frame) (new_ip new_port l3_off l4_off : Nat) : Frame :=
  let old_port := read16 f (l4_off + 2)
  let old_ip := read32 f (l3_off + 16)
  if read16 f (l4_off + 6) ≠ 0 then
    if fl 0 then f else
    let f1 := write16 f (l4_off + 6) (csum_replace2 (read16 f (l4_off + 6)) old_port new_port)
    if fl 1 then f1 else
    let f2 := write16 f1 (l4_off + 6) (csum_replace4 (read16 f1 (l4_off + 6)) old_ip new_ip)
    rewrite_l3_and_store fl f2 old_ip new_ip new_port l3_off l4_off
  else
    rewrite_l3_and_store fl f old_ip new_ip new_port l3_off l4_off

/-- `drift_l4_ingress` of `drift_l4.c`, returning the verdict and the frame
left in the buffer.  Offsets: Ethernet header at 0 (14 bytes, `h_proto` at
12), IPv4 header at 14 (`ihl` = low nibble of byte 14, `protocol` at 23,
checksum at 24, `daddr` at 30), L4 header at `14 + ihl*4` (destination port at
`+2`).  Each C bounds check `p + k > data_end` becomes a length test. -/
def drift_l4_ingress (portmap : Portmap) (fl : Faults) (f : Frame) : Nat × Frame :=
  if f.length < 14 then (TC_ACT_OK, f) else
  if read16 f 12 ≠ 2048 then (TC_ACT_OK, f) else
  if f.length < 34 then (TC_ACT_OK, f) else
  if byte f 14 % 16 < 5 then (TC_ACT_OK, f) else
  if f.length < 14 + byte f 14 % 16 * 4 + 2 then (TC_ACT_OK, f) else
  if byte f 23 = 6 then
    if f.length < 14 + byte f 14 % 16 * 4 + 20 then (TC_ACT_OK, f) else
    match portmap ⟨6, 0, read16 f (14 + byte f 14 % 16 * 4 + 2)⟩ with
    | none => (TC_ACT_OK, f)
    | some v =>
        (TC_ACT_OK, rewrite_tcp fl f v.dst_ip v.dst_port 14 (14 + byte f 14 % 16 * 4))
  else if byte f 23 = 17 then
    if f.length < 14 + byte f 14 % 16 * 4 + 8 then (TC_ACT_OK, f) else
    match portmap ⟨17, 0, read16 f (14 + byte f 14 % 16 * 4 + 2)⟩ with
    | none => (TC_ACT_OK, f)
    | some v =>
        (TC_ACT_OK, rewrite_udp fl f v.dst_ip v.dst_port 14 (14 + byte f 14 % 16 * 4))
  else (TC_ACT_OK, f)

/-- The byte positions a complete rewrite is allowed to change: the IPv4
header checksum (offsets 24–25), the IPv4 destination address (30–33), the L4
destination port (`l4_off + 2/3`), and the L4 checksum (TCP `l4_off + 16/17`,
UDP `l4_off + 6/7`). -/
def rewrittenField (proto l4_off i : Nat) : Prop :=
  i = 24 ∨ i = 25 ∨ (30 ≤ i ∧ i ≤ 33) ∨ i = l4_off + 2 ∨ i = l4_off + 3 ∨
  (proto = 6 ∧ (i = l4_off + 16 ∨ i = l4_off + 17)) ∨
  (proto = 17 ∧ (i = l4_off + 6 ∨ i = l4_off + 7))

/-! ## Concrete frames and tables used as witnesses -/

/-- A 54-byte IPv4/TCP frame: IHL 5, total length 40, TTL 64,
`10.0.0.1:1234 → 10.0.0.2:8080`, SYN, zero payload, valid IPv4 header
checksum `0x66CE` and valid TCP checksum `0x056E`. -/
def testFrameTcp : Frame :=
  [0x00, 0x11, 0x22, 0x33, 0x44, 0x55, 0x66, 0x77, 0x88, 0x99, 0xaa, 0xbb, 0x08, 0x00,
   0x45, 0x00, 0x00, 0x28, 0x00, 0x00, 0x00, 0x00, 0x40, 0x06, 0x66, 0xCE,
   0x0a, 0x00, 0x00, 0x01, 0x0a, 0x00, 0x00, 0x02,
   0x04, 0xd2, 0x1f, 0x90, 0x00, 0x00, 0x00, 0x00, 0x00, 0x00, 0x00, 0x00,
   0x50, 0x02, 0x72, 0x10, 0x05, 0x6E, 0x00, 0x00]

/-- `testFrameTcp` with a nonzero fragment offset field (bytes 20–21 =
`0x2001`): a non-first IP fragment. -/
def testFrameFrag : Frame :=
  [0x00, 0x11, 0x22, 0x33, 0x44, 0x55, 0x66, 0x77, 0x88, 0x99, 0xaa, 0xbb, 0x08, 0x00,
   0x45, 0x00, 0x00, 0x28, 0x00, 0x00, 0x20, 0x01, 0x40, 0x06, 0x66, 0xCE,
   0x0a, 0x00, 0x00, 0x01, 0x0a, 0x00, 0x00, 0x02,
   0x04, 0xd2, 0x1f, 0x90, 0x00, 0x00, 0x00, 0x00, 0x00, 0x00, 0x00, 0x00,
   0x50, 0x02, 0x72, 0x10, 0x05, 0x6E, 0x00, 0x00]

/-- A 94-byte IPv4/TCP frame with `IHL = 15` (60-byte IPv4 header, 40 bytes
of zero options), destination port 8080 located at offset `14 + 60 + 2`. -/
def testFrameIhl15 : Frame :=
  [0x00, 0x11, 0x22, 0x33, 0x44, 0x55, 0x66, 0x77, 0x88, 0x99, 0xaa, 0xbb, 0x08, 0x00,
   0x4F, 0x00, 0x00, 0x50, 0x00, 0x00, 0x00, 0x00, 0x40, 0x06, 0x00, 0x00,
   0x0a, 0x00, 0x00, 0x01, 0x0a, 0x00, 0x00, 0x02,
   0x00, 0x00, 0x00, 0x00, 0x00, 0x00, 0x00, 0x00, 0x00, 0x00, 0x00, 0x00,
   0x00, 0x00, 0x00, 0x00, 0x00, 0x00, 0x00, 0x00, 0x00, 0x00, 0x00, 0x00,
   0x00, 0x00, 0x00, 0x00, 0x00, 0x00, 0x00, 0x00, 0x00, 0x00, 0x00, 0x00,
   0x00, 0x00, 0x00, 0x00, 0x00, 0x00,
   0x04, 0xd2, 0x1f, 0x90, 0x00, 0x00, 0x00, 0x00, 0x00, 0x00, 0x00, 0x00,
   0x50, 0x02, 0x72, 0x10, 0x00, 0x00, 0x00, 0x00]

/-- A 42-byte IPv4/UDP frame: total length 28, `10.0.0.1:49152 → 10.0.0.2:53`,
UDP length 8, UDP checksum 0 (checksum disabled), valid IPv4 header
checksum `0x66CF`. -/
def testFrameUdp : Frame :=
  [0x00, 0x11, 0x22, 0x33, 0x44, 0x55, 0x66, 0x77, 0x88, 0x99, 0xaa, 0xbb, 0x08, 0x00,
   0x45, 0x00, 0x00, 0x1c, 0x00, 0x00, 0x00, 0x00, 0x40, 0x11, 0x66, 0xCF,
   0x0a, 0x00, 0x00, 0x01, 0x0a, 0x00, 0x00, 0x02,
   0xc0, 0x00, 0x00, 0x35, 0x00, 0x08, 0x00, 0x00]

/-- Table with the single TCP rule `(6, 8080) → 10.0.0.5:80`. -/
def testMap : Portmap :=
  fun k => if k = ⟨6, 0, 8080⟩ then some ⟨0x0a000005, 80⟩ else none

/-- Table with the single UDP rule `(17, 53) → 192.168.1.2:5353`. -/
def testMapUdp : Portmap :=
  fun k => if k = ⟨17, 0, 53⟩ then some ⟨0xC0A80102, 5353⟩ else none

/-- Table whose only entries sit at keys with a nonzero padding byte. -/
def padMap : Portmap :=
  fun k => if k.pad = 0 then none else some ⟨1, 2⟩

/-- The empty table. -/
def noneMap : Portmap := fun _ => none

/-- The fault oracle of a normal invocation: no helper call fails. -/
def noFaults : Faults := fun _ => false

/-- Fault oracle failing exactly the second helper call
(the pseudo-header `bpf_l4_csum_replace`). -/
def faultSecond : Faults := fun i => i == 1

/-! ## Byte-level lemmas about reads and writes -/

theorem byte_set (f : Frame) (i v j : Nat) :
    byte (f.set i v) j = if i = j ∧ i < f.length then v else byte f j := by
  simp only [byte, List.getD_eq_getElem?_getD, List.getElem?_set]
  split
  · rename_i h; subst h
    by_cases hl : i < f.length <;>
      simp [hl, List.getElem?_eq_getElem, List.getElem?_eq_none, Nat.le_of_not_lt]
  · rename_i h; simp [h, fun hh : i = j ∧ i < f.length => h hh.1]

theorem byte_lt {f : Frame} (hw : Wf f) (i : Nat) : byte f i < 256 := by
  rw [byte, List.getD_eq_getElem?_getD]
  cases h : f[i]? with
  | none => simp
  | some b => simpa using hw b (List.getElem?_mem h)

theorem read16_lt {f : Frame} (hw : Wf f) (i : Nat) : read16 f i < 65536 := by
  have h1 := byte_lt hw i
  have h2 := byte_lt hw (i + 1)
  unfold read16; omega

theorem length_write16 (f : Frame) (i v : Nat) : (write16 f i v).length = f.length := by
  simp [write16]

theorem length_write32 (f : Frame) (i v : Nat) : (write32 f i v).length = f.length := by
  simp [write32, length_write16]

theorem byte_write16_ne (f : Frame) (i v : Nat) {j : Nat} (h1 : j ≠ i) (h2 : j ≠ i + 1) :
    byte (write16 f i v) j = byte f j := by
  unfold write16
  rw [byte_set, if_neg (fun hh => h2 hh.1.symm), byte_set, if_neg (fun hh => h1 hh.1.symm)]

theorem byte_write16_fst (f : Frame) {i : Nat} (v : Nat) (h : i < f.length) :
    byte (write16 f i v) i = v / 256 := by
  unfold write16
  rw [byte_set, if_neg (by omega), byte_set, if_pos ⟨rfl, h⟩]

theorem byte_write16_snd (f : Frame) {i : Nat} (v : Nat) (h : i + 1 < f.length) :
    byte (write16 f i v) (i + 1) = v % 256 := by
  unfold write16
  rw [byte_set, if_pos ⟨rfl, by simpa using h⟩]

theorem byte_write32_ne (f : Frame) (i v : Nat) {j : Nat}
    (h : j < i ∨ i + 3 < j) : byte (write32 f i v) j = byte f j := by
  unfold write32
  rw [byte_write16_ne _ _ _ (by omega) (by omega), byte_write16_ne _ _ _ (by omega) (by omega)]

theorem read16_write16_self (f : Frame) {i : Nat} (v : Nat) (h : i + 1 < f.length) :
    read16 (write16 f i v) i = v := by
  unfold read16
  rw [byte_write16_fst f v (by omega), byte_write16_snd f v h]
  omega

theorem read16_write16_ne (f : Frame) (i v : Nat) {j : Nat}
    (h : j + 1 < i ∨ i + 1 < j) :
    read16 (write16 f i v) j = read16 f j := by
  unfold read16
  rw [byte_write16_ne _ _ _ (by omega) (by omega), byte_write16_ne _ _ _ (by omega) (by omega)]

theorem read16_write32_ne (f : Frame) (i v : Nat) {j : Nat}
    (h : j + 1 < i ∨ i + 3 < j) :
    read16 (write32 f i v) j = read16 f j := by
  unfold read16
  rw [byte_write32_ne _ _ _ (by omega), byte_write32_ne _ _ _ (by omega)]

theorem read32_write32_self (f : Frame) {i : Nat} (v : Nat)
    (h : i + 3 < f.length) (hv : v < 4294967296) :
    read32 (write32 f i v) i = v := by
  unfold write32 read32
  rw [read16_write16_self _ _ (by simp [length_write16]; omega),
    read16_write16_ne _ _ _ (by omega), read16_write16_self _ _ (by omega)]
  have : v / 65536 < 65536 := by omega
  omega

/-! ## Word-sum lemmas -/

theorem wsum_congr {f g : Frame} {a k : Nat}
    (h : ∀ j, a ≤ j → j < a + 2 * k → byte f j = byte g j) :
    wsum f a k = wsum g a k := by
  induction k generalizing a with
  | zero => rfl
  | succ k ih =>
      unfold wsum
      have hr : read16 f a = read16 g a := by
        unfold read16
        rw [h a (by omega) (by omega), h (a + 1) (by omega) (by omega)]
      rw [hr, ih fun j hj1 hj2 => h j (by omega) (by omega)]

theorem le_wsum (f : Frame) (a : Nat) {k : Nat} (hk : 0 < k) :
    read16 f a ≤ wsum f a k := by
  cases k with
  | zero => omega
  | succ k => unfold wsum; omega

theorem wsum_write16 (f : Frame) {a k p : Nat} (v : Nat) {j : Nat}
    (hp : p = a + 2 * j) (hj : j < k) (hlen : p + 1 < f.length) :
    wsum (write16 f p v) a k + read16 f p = wsum f a k + v := by
  induction j generalizing a k with
  | zero =>
      cases k with
      | zero => omega
      | succ k =>
          have ha : p = a := by omega
          subst ha
          unfold wsum
          rw [read16_write16_self f v hlen,
            wsum_congr fun j hj1 hj2 => byte_write16_ne f p v (by omega) (by omega)]
          omega
  | succ j ih =>
      cases k with
      | zero => omega
      | succ k =>
          unfold wsum
          rw [read16_write16_ne f p v (by omega)]
          have := ih (a := a + 2) (k := k) (by omega) (by omega)
          omega

theorem csumRegion_congr {f g : Frame} {a n : Nat}
    (h : ∀ j, a ≤ j → j < a + n → byte f j = byte g j) :
    csumRegion f a n = csumRegion g a n := by
  unfold csumRegion
  have hw' : wsum f a (n / 2) = wsum g a (n / 2) :=
    wsum_congr fun j hj1 hj2 => h j hj1 (by omega)
  have hb : (if n % 2 = 1 then byte f (a + 2 * (n / 2)) * 256 else 0)
      = (if n % 2 = 1 then byte g (a + 2 * (n / 2)) * 256 else 0) := by
    split
    · rename_i hodd; rw [h (a + 2 * (n / 2)) (by omega) (by omega)]
    · rfl
  omega

theorem csumRegion_write16 (f : Frame) {a n p : Nat} (v : Nat) {j : Nat}
    (hp : p = a + 2 * j) (hj : j < n / 2) (hlen : p + 1 < f.length) :
    csumRegion (write16 f p v) a n + read16 f p = csumRegion f a n + v := by
  unfold csumRegion
  have hb : (if n % 2 = 1 then byte (write16 f p v) (a + 2 * (n / 2)) * 256 else 0)
      = (if n % 2 = 1 then byte f (a + 2 * (n / 2)) * 256 else 0) := by
    split
    · rw [byte_write16_ne f p v (by omega) (by omega)]
    · rfl
  rw [hb]
  have := wsum_write16 f v (a := a) (k := n / 2) hp hj hlen
  omega

/-! ## Arithmetic lemmas for the incremental checksum update -/

theorem fold1Aux_lt : ∀ {fuel n : Nat}, n ≤ fuel → fold1Aux fuel n < 65536 := by
  intro fuel
  induction fuel with
  | zero => intro n h; unfold fold1Aux; omega
  | succ fuel ih =>
      intro n h
      unfold fold1Aux
      split
      · assumption
      · exact ih (by have : 0 < n / 65536 := Nat.div_pos (by omega) (by norm_num); omega)

theorem fold1Aux_mod : ∀ {fuel n : Nat}, n ≤ fuel → fold1Aux fuel n % 65535 = n % 65535 := by
  intro fuel
  induction fuel with
  | zero => intro n h; unfold fold1Aux; omega
  | succ fuel ih =>
      intro n h
      unfold fold1Aux
      split
      · rfl
      · rename_i hn
        rw [ih (by have : 0 < n / 65536 := Nat.div_pos (by omega) (by norm_num); omega)]
        omega

theorem fold1_lt (n : Nat) : fold1 n < 65536 := fold1Aux_lt Nat.le.refl

theorem fold1_mod (n : Nat) : fold1 n % 65535 = n % 65535 := fold1Aux_mod Nat.le.refl

theorem natCast_fold1 (n : Nat) : ((fold1 n : Nat) : ZMod 65535) = (n : ZMod 65535) := by
  rw [ZMod.natCast_eq_natCast_iff]
  exact fold1_mod n

theorem natCast_comp16 {x : Nat} (hx : x < 65536) :
    ((comp16 x : Nat) : ZMod 65535) = -(x : ZMod 65535) := by
  unfold comp16
  rw [Nat.mod_eq_of_lt hx, Nat.cast_sub (by omega : x ≤ 65535),
    show ((65535 : Nat) : ZMod 65535) = 0 from ZMod.natCast_self 65535]
  ring

theorem csum_replace2_cast {c o n : Nat} (hc : c < 65536) (ho : o < 65536) (hn : n < 65536) :
    ((csum_replace2 c o n : Nat) : ZMod 65535) =
      (c : ZMod 65535) + (o : ZMod 65535) - (n : ZMod 65535) := by
  unfold csum_replace2
  rw [Nat.mod_eq_of_lt hn, natCast_comp16 (fold1_lt _), natCast_fold1]
  push_cast
  rw [natCast_comp16 hc, natCast_comp16 ho]
  ring

theorem csum_replace4_cast {c o n : Nat} (hc : c < 65536) (ho : o < 4294967296)
    (hn : n < 4294967296) :
    ((csum_replace4 c o n : Nat) : ZMod 65535) =
      (c : ZMod 65535) + ((o / 65536 : Nat) : ZMod 65535) + ((o % 65536 : Nat) : ZMod 65535)
        - ((n / 65536 : Nat) : ZMod 65535) - ((n % 65536 : Nat) : ZMod 65535) := by
  unfold csum_replace4
  have h1 : o / 65536 < 65536 := by omega
  have h2 : o % 65536 < 65536 := by omega
  rw [Nat.mod_eq_of_lt (show n / 65536 < 65536 by omega),
    natCast_comp16 (fold1_lt _), natCast_fold1]
  push_cast
  rw [natCast_comp16 hc, natCast_comp16 h1, natCast_comp16 h2]
  ring

theorem csum_replace2_lt (c o n : Nat) : csum_replace2 c o n < 65536 := by
  unfold csum_replace2 comp16; omega

theorem csum_replace4_lt (c o n : Nat) : csum_replace4 c o n < 65536 := by
  unfold csum_replace4 comp16; omega

theorem validSum_cast {s : Nat} (h : (s : ZMod 65535) = 0) (hnz : s ≠ 0) : ValidSum s := by
  refine ⟨?_, hnz⟩
  rwa [ZMod.natCast_zmod_eq_zero_iff_dvd, Nat.dvd_iff_mod_eq_zero] at h

theorem cast_of_validSum {s : Nat} (h : ValidSum s) : (s : ZMod 65535) = 0 := by
  rw [ZMod.natCast_zmod_eq_zero_iff_dvd, Nat.dvd_iff_mod_eq_zero]
  exact h.1

theorem read32_div {f : Frame} (hw : Wf f) (i : Nat) : read32 f i / 65536 = read16 f i := by
  have h2 := read16_lt hw (i + 2)
  unfold read32
  omega

theorem read32_mod (f : Frame) {i : Nat} (hw : Wf f) : read32 f i % 65536 = read16 f (i + 2) := by
  have h2 := read16_lt hw (i + 2)
  unfold read32
  omega

theorem read32_lt {f : Frame} (hw : Wf f) (i : Nat) : read32 f i < 4294967296 := by
  have h1 := read16_lt hw i
  have h2 := read16_lt hw (i + 2)
  unfold read32
  omega

/-! ## Reduction lemmas for the entry point and the rewrite helpers -/

theorem ingress_tcp_hit (tbl : Portmap) (fl : Faults) (f : Frame) (v : portmap_value)
    (hty : read16 f 12 = 2048) (hlen : 34 ≤ f.length) (hihl : 5 ≤ byte f 14 % 16)
    (hproto : byte f 23 = 6) (hl4 : 14 + byte f 14 % 16 * 4 + 20 ≤ f.length)
    (hhit : tbl ⟨6, 0, read16 f (14 + byte f 14 % 16 * 4 + 2)⟩ = some v) :
    drift_l4_ingress tbl fl f =
      (TC_ACT_OK, rewrite_tcp fl f v.dst_ip v.dst_port 14 (14 + byte f 14 % 16 * 4)) := by
  unfold drift_l4_ingress
  rw [if_neg (by omega), if_neg (by omega), if_neg (by omega), if_neg (by omega),
    if_neg (by omega), if_pos hproto, if_neg (by omega), hhit]

theorem ingress_udp_hit (tbl : Portmap) (fl : Faults) (f : Frame) (v : portmap_value)
    (hty : read16 f 12 = 2048) (hlen : 34 ≤ f.length) (hihl : 5 ≤ byte f 14 % 16)
    (hproto : byte f 23 = 17) (hl4 : 14 + byte f 14 % 16 * 4 + 8 ≤ f.length)
    (hhit : tbl ⟨17, 0, read16 f (14 + byte f 14 % 16 * 4 + 2)⟩ = some v) :
    drift_l4_ingress tbl fl f =
      (TC_ACT_OK, rewrite_udp fl f v.dst_ip v.dst_port 14 (14 + byte f 14 % 16 * 4)) := by
  unfold drift_l4_ingress
  rw [if_neg (by omega), if_neg (by omega), if_neg (by omega), if_neg (by omega),
    if_neg (by omega), if_neg (by omega), if_pos hproto, if_neg (by omega), hhit]

theorem rewrite_tcp_nofault (f : Frame) (nip np L : Nat) (hL : 26 ≤ L)
    (hA : L + 17 < f.length) :
    rewrite_tcp (fun _ => false) f nip np 14 L =
      write32 (write16 (write16 (write16 (write16 f (L + 16)
        (csum_replace2 (read16 f (L + 16)) (read16 f (L + 2)) np)) (L + 16)
        (csum_replace4 (csum_replace2 (read16 f (L + 16)) (read16 f (L + 2)) np)
          (read32 f 30) nip)) 24
        (csum_replace4 (read16 f 24) (read32 f 30) nip)) (L + 2) np) 30 nip := by
  unfold rewrite_tcp rewrite_l3_and_store
  simp only [Bool.false_eq_true, if_false]
  rw [read16_write16_self f _ (by omega),
    read16_write16_ne _ _ _ (Or.inl (by omega)), read16_write16_ne _ _ _ (Or.inl (by omega))]

theorem rewrite_udp_nofault_nonzero (f : Frame) (nip np L : Nat) (hL : 26 ≤ L)
    (hA : L + 7 < f.length) (hck : read16 f (L + 6) ≠ 0) :
    rewrite_udp (fun _ => false) f nip np 14 L =
      write32 (write16 (write16 (write16 (write16 f (L + 6)
        (csum_replace2 (read16 f (L + 6)) (read16 f (L + 2)) np)) (L + 6)
        (csum_replace4 (csum_replace2 (read16 f (L + 6)) (read16 f (L + 2)) np)
          (read32 f 30) nip)) 24
        (csum_replace4 (read16 f 24) (read32 f 30) nip)) (L + 2) np) 30 nip := by
  unfold rewrite_udp rewrite_l3_and_store
  rw [if_pos hck]
  simp only [Bool.false_eq_true, if_false]
  rw [read16_write16_self f _ (by omega),
    read16_write16_ne _ _ _ (Or.inl (by omega)), read16_write16_ne _ _ _ (Or.inl (by omega))]

theorem rewrite_udp_zero_check (fl : Faults) (f : Frame) (nip np L : Nat)
    (hck : read16 f (L + 6) = 0) :
    rewrite_udp fl f nip np 14 L =
      rewrite_l3_and_store fl f (read32 f 30) nip np 14 L := by
  unfold rewrite_udp
  rw [if_neg (by omega)]

/-! ## Locality: bytes the rewrite helpers never touch -/

theorem byte_rls_ne (fl : Faults) (f : Frame) (oip nip np L : Nat) {i : Nat}
    (h24 : i ≠ 24 ∧ i ≠ 25) (h30 : ¬(30 ≤ i ∧ i ≤ 33)) (hP : i ≠ L + 2 ∧ i ≠ L + 3) :
    byte (rewrite_l3_and_store fl f oip nip np 14 L) i = byte f i := by
  unfold rewrite_l3_and_store
  split
  · rfl
  · split
    · rw [byte_write16_ne _ _ _ (by omega) (by omega)]
    · split
      · rw [byte_write16_ne _ _ _ (by omega) (by omega),
          byte_write16_ne _ _ _ (by omega) (by omega)]
      · rw [byte_write32_ne _ _ _ (by omega),
          byte_write16_ne _ _ _ (by omega) (by omega),
          byte_write16_ne _ _ _ (by omega) (by omega)]

theorem byte_rewrite_tcp_ne (fl : Faults) (f : Frame) (nip np L : Nat) {i : Nat}
    (h24 : i ≠ 24 ∧ i ≠ 25) (h30 : ¬(30 ≤ i ∧ i ≤ 33)) (hP : i ≠ L + 2 ∧ i ≠ L + 3)
    (hA : i ≠ L + 16 ∧ i ≠ L + 17) :
    byte (rewrite_tcp fl f nip np 14 L) i = byte f i := by
  unfold rewrite_tcp
  split
  · rfl
  · split
    · rw [byte_write16_ne _ _ _ (by omega) (by omega)]
    · rw [byte_rls_ne fl _ _ _ _ _ h24 h30 hP,
        byte_write16_ne _ _ _ (by omega) (by omega),
        byte_write16_ne _ _ _ (by omega) (by omega)]

theorem byte_rewrite_udp_ne (fl : Faults) (f : Frame) (nip np L : Nat) {i : Nat}
    (h24 : i ≠ 24 ∧ i ≠ 25) (h30 : ¬(30 ≤ i ∧ i ≤ 33)) (hP : i ≠ L + 2 ∧ i ≠ L + 3)
    (hA : i ≠ L + 6 ∧ i ≠ L + 7) :
    byte (rewrite_udp fl f nip np 14 L) i = byte f i := by
  unfold rewrite_udp
  split
  · split
    · rfl
    · split
      · rw [byte_write16_ne _ _ _ (by omega) (by omega)]
      · rw [byte_rls_ne fl _ _ _ _ _ h24 h30 hP,
          byte_write16_ne _ _ _ (by omega) (by omega),
          byte_write16_ne _ _ _ (by omega) (by omega)]
  · rw [byte_rls_ne fl _ _ _ _ _ h24 h30 hP]

theorem length_rls (fl : Faults) (f : Frame) (oip nip np l3 L : Nat) :
    (rewrite_l3_and_store fl f oip nip np l3 L).length = f.length := by
  unfold rewrite_l3_and_store
  split
  · rfl
  · split
    · rw [length_write16]
    · split
      · rw [length_write16, length_write16]
      · rw [length_write32, length_write16, length_write16]

theorem length_rewrite_tcp (fl : Faults) (f : Frame) (nip np l3 L : Nat) :
    (rewrite_tcp fl f nip np l3 L).length = f.length := by
  unfold rewrite_tcp
  split
  · rfl
  · split
    · rw [length_write16]
    · rw [length_rls, length_write16, length_write16]

theorem length_rewrite_udp (fl : Faults) (f : Frame) (nip np l3 L : Nat) :
    (rewrite_udp fl f nip np l3 L).length = f.length := by
  unfold rewrite_udp
  split
  · split
    · rfl
    · split
      · rw [length_write16]
      · rw [length_rls, length_write16, length_write16]
  · rw [length_rls]

/-! ## Claim theorems -/

/-- C1: for every well-formed IPv4/TCP frame (valid lengths, valid input
checksums) whose `(protocol, destinationPort)` key matches a portmap entry,
the frame produced by the rewrite (no helper call failing) has destination
address equal to the entry's address, TCP destination port equal to the
entry's port, an IPv4 header checksum that verifies when recomputed from
scratch over the new header, and a TCP checksum that verifies when recomputed
from scratch over the new header and pseudo-header. -/
theorem tcp_rewrite_gives_target_and_valid_checksums
    (tbl : Portmap) (f : Frame) (v : portmap_value)
    (hw : Wf f)
    (hty : read16 f 12 = 2048)
    (hihl : 5 ≤ byte f 14 % 16)
    (hproto : byte f 23 = 6)
    (htot1 : byte f 14 % 16 * 4 + 20 ≤ read16 f 16)
    (htot2 : 14 + read16 f 16 ≤ f.length)
    (hip : ipChecksumOk f) (htcp : tcpChecksumOk f)
    (hvip : v.dst_ip < 4294967296) (hvport : v.dst_port < 65536)
    (hhit : tbl ⟨6, 0, read16 f (14 + byte f 14 % 16 * 4 + 2)⟩ = some v) :
    read32 (drift_l4_ingress tbl (fun _ => false) f).2 30 = v.dst_ip ∧
    read16 (drift_l4_ingress tbl (fun _ => false) f).2 (14 + byte f 14 % 16 * 4 + 2) =
      v.dst_port ∧
    ipChecksumOk (drift_l4_ingress tbl (fun _ => false) f).2 ∧
    tcpChecksumOk (drift_l4_ingress tbl (fun _ => false) f).2 := by
  unfold ipChecksumOk ipHeaderSum at hip
  unfold tcpChecksumOk tcpTotalSum at htcp
  set K := byte f 14 % 16 with hK
  set T := read16 f 16 with hT
  set L := 14 + K * 4 with hL
  set seg := T - K * 4 with hseg
  have hK16 : K < 16 := Nat.mod_lt _ (by norm_num)
  have hTlt : T < 65536 := read16_lt hw 16
  have hing := ingress_tcp_hit tbl (fun _ => false) f v hty (by omega) hihl hproto
    (by omega) hhit
  rw [hing]
  dsimp only
  rw [rewrite_tcp_nofault f v.dst_ip v.dst_port L (by omega) (by omega)]
  set c1v := csum_replace2 (read16 f (L + 16)) (read16 f (L + 2)) v.dst_port with hc1v
  set c2v := csum_replace4 c1v (read32 f 30) v.dst_ip with hc2v
  set c3v := csum_replace4 (read16 f 24) (read32 f 30) v.dst_ip with hc3v
  set g1 := write16 f (L + 16) c1v with hg1
  set g2 := write16 g1 (L + 16) c2v with hg2
  set g3 := write16 g2 24 c3v with hg3
  set g4 := write16 g3 (L + 2) v.dst_port with hg4
  have hsplit : write32 g4 30 v.dst_ip =
      write16 (write16 g4 30 (v.dst_ip / 65536)) 32 (v.dst_ip % 65536) := rfl
  rw [hsplit]
  set g5 := write16 g4 30 (v.dst_ip / 65536) with hg5
  set out := write16 g5 32 (v.dst_ip % 65536) with hout
  have lg1 : g1.length = f.length := length_write16 _ _ _
  have lg2 : g2.length = f.length := by rw [hg2, length_write16, lg1]
  have lg3 : g3.length = f.length := by rw [hg3, length_write16, lg2]
  have lg4 : g4.length = f.length := by rw [hg4, length_write16, lg3]
  have lg5 : g5.length = f.length := by rw [hg5, length_write16, lg4]
  -- the two target fields
  have hr30g4 : read16 g4 30 = read16 f 30 := by
    rw [hg4, read16_write16_ne _ _ _ (Or.inl (by omega)),
      hg3, read16_write16_ne _ _ _ (Or.inr (by omega)),
      hg2, read16_write16_ne _ _ _ (Or.inl (by omega)),
      hg1, read16_write16_ne _ _ _ (Or.inl (by omega))]
  have hr32g5 : read16 g5 32 = read16 f 32 := by
    rw [hg5, read16_write16_ne _ _ _ (Or.inr (by omega)),
      hg4, read16_write16_ne _ _ _ (Or.inl (by omega)),
      hg3, read16_write16_ne _ _ _ (Or.inr (by omega)),
      hg2, read16_write16_ne _ _ _ (Or.inl (by omega)),
      hg1, read16_write16_ne _ _ _ (Or.inl (by omega))]
  have haddr : read32 out 30 = v.dst_ip := by
    have h32 : read16 out 32 = v.dst_ip % 65536 := by
      rw [hout]; exact read16_write16_self g5 _ (by rw [lg5]; omega)
    have h30 : read16 out 30 = v.dst_ip / 65536 := by
      rw [hout, read16_write16_ne _ _ _ (Or.inl (by omega)), hg5]
      exact read16_write16_self g4 _ (by rw [lg4]; omega)
    rw [read32, show (30 : Nat) + 2 = 32 from rfl, h30, h32]
    omega
  have hport : read16 out (L + 2) = v.dst_port := by
    rw [hout, read16_write16_ne _ _ _ (Or.inr (by omega)),
      hg5, read16_write16_ne _ _ _ (Or.inr (by omega)),
      hg4, read16_write16_self _ _ (by rw [lg3]; omega)]
  -- unchanged header fields
  have hb14 : byte out 14 = byte f 14 := by
    rw [hout, byte_write16_ne _ _ _ (by omega) (by omega),
      hg5, byte_write16_ne _ _ _ (by omega) (by omega),
      hg4, byte_write16_ne _ _ _ (by omega) (by omega),
      hg3, byte_write16_ne _ _ _ (by omega) (by omega),
      hg2, byte_write16_ne _ _ _ (by omega) (by omega),
      hg1, byte_write16_ne _ _ _ (by omega) (by omega)]
  have hb23 : byte out 23 = byte f 23 := by
    rw [hout, byte_write16_ne _ _ _ (by omega) (by omega),
      hg5, byte_write16_ne _ _ _ (by omega) (by omega),
      hg4, byte_write16_ne _ _ _ (by omega) (by omega),
      hg3, byte_write16_ne _ _ _ (by omega) (by omega),
      hg2, byte_write16_ne _ _ _ (by omega) (by omega),
      hg1, byte_write16_ne _ _ _ (by omega) (by omega)]
  have hr16 : read16 out 16 = read16 f 16 := by
    rw [hout, read16_write16_ne _ _ _ (Or.inl (by omega)),
      hg5, read16_write16_ne _ _ _ (Or.inl (by omega)),
      hg4, read16_write16_ne _ _ _ (Or.inl (by omega)),
      hg3, read16_write16_ne _ _ _ (Or.inl (by omega)),
      hg2, read16_write16_ne _ _ _ (Or.inl (by omega)),
      hg1, read16_write16_ne _ _ _ (Or.inl (by omega))]
  have hr14 : read16 out 14 = read16 f 14 := by
    rw [hout, read16_write16_ne _ _ _ (Or.inl (by omega)),
      hg5, read16_write16_ne _ _ _ (Or.inl (by omega)),
      hg4, read16_write16_ne _ _ _ (Or.inl (by omega)),
      hg3, read16_write16_ne _ _ _ (Or.inl (by omega)),
      hg2, read16_write16_ne _ _ _ (Or.inl (by omega)),
      hg1, read16_write16_ne _ _ _ (Or.inl (by omega))]
  -- IPv4 header word-sum bookkeeping
  have e1 : wsum g1 14 (K * 2) = wsum f 14 (K * 2) :=
    wsum_congr fun j hj1 hj2 => by rw [hg1, byte_write16_ne _ _ _ (by omega) (by omega)]
  have e2 : wsum g2 14 (K * 2) = wsum g1 14 (K * 2) :=
    wsum_congr fun j hj1 hj2 => by rw [hg2, byte_write16_ne _ _ _ (by omega) (by omega)]
  have hr24g2 : read16 g2 24 = read16 f 24 := by
    rw [hg2, read16_write16_ne _ _ _ (Or.inl (by omega)),
      hg1, read16_write16_ne _ _ _ (Or.inl (by omega))]
  have e3 : wsum g3 14 (K * 2) + read16 g2 24 = wsum g2 14 (K * 2) + c3v := by
    rw [hg3]
    exact wsum_write16 g2 c3v (j := 5) (by omega) (by omega) (by rw [lg2]; omega)
  have e4 : wsum g4 14 (K * 2) = wsum g3 14 (K * 2) :=
    wsum_congr fun j hj1 hj2 => by rw [hg4, byte_write16_ne _ _ _ (by omega) (by omega)]
  have e5 : wsum g5 14 (K * 2) + read16 g4 30 = wsum g4 14 (K * 2) + v.dst_ip / 65536 := by
    rw [hg5]
    exact wsum_write16 g4 _ (j := 8) (by omega) (by omega) (by rw [lg4]; omega)
  have e6 : wsum out 14 (K * 2) + read16 g5 32 = wsum g5 14 (K * 2) + v.dst_ip % 65536 := by
    rw [hout]
    exact wsum_write16 g5 _ (j := 9) (by omega) (by omega) (by rw [lg5]; omega)
  have eIP : wsum out 14 (K * 2) + read16 f 24 + read16 f 30 + read16 f 32 =
      wsum f 14 (K * 2) + c3v + v.dst_ip / 65536 + v.dst_ip % 65536 := by
    omega
  have hip0 : ((wsum f 14 (K * 2) : Nat) : ZMod 65535) = 0 := cast_of_validSum hip
  have hc3z : ((c3v : Nat) : ZMod 65535) =
      (read16 f 24 : ZMod 65535) + ((read16 f 30 : Nat) : ZMod 65535)
        + ((read16 f 32 : Nat) : ZMod 65535)
        - ((v.dst_ip / 65536 : Nat) : ZMod 65535)
        - ((v.dst_ip % 65536 : Nat) : ZMod 65535) := by
    rw [hc3v]
    have h := csum_replace4_cast (read16_lt hw 24) (read32_lt hw 30) hvip
    rwa [read32_div hw, read32_mod _ hw] at h
  have eIPz : ((wsum out 14 (K * 2) : Nat) : ZMod 65535) = 0 := by
    have hcast := congrArg (fun n : Nat => (n : ZMod 65535)) eIP
    push_cast at hcast
    linear_combination hcast + hc3z + hip0
  have hipOut : ipChecksumOk out := by
    unfold ipChecksumOk ipHeaderSum
    rw [hb14, ← hK]
    refine validSum_cast eIPz ?_
    have h1 : read16 out 14 ≤ wsum out 14 (K * 2) := le_wsum out 14 (by omega)
    have h3 : 5 ≤ byte f 14 := le_trans hihl (Nat.mod_le _ _)
    have h4 : 5 * 256 ≤ read16 f 14 := by unfold read16; omega
    omega
  -- TCP pseudo-header word-sum bookkeeping
  have p1 : wsum g4 26 4 = wsum f 26 4 := by
    have q1 : wsum g1 26 4 = wsum f 26 4 :=
      wsum_congr fun j hj1 hj2 => by rw [hg1, byte_write16_ne _ _ _ (by omega) (by omega)]
    have q2 : wsum g2 26 4 = wsum g1 26 4 :=
      wsum_congr fun j hj1 hj2 => by rw [hg2, byte_write16_ne _ _ _ (by omega) (by omega)]
    have q3 : wsum g3 26 4 = wsum g2 26 4 :=
      wsum_congr fun j hj1 hj2 => by rw [hg3, byte_write16_ne _ _ _ (by omega) (by omega)]
    have q4 : wsum g4 26 4 = wsum g3 26 4 :=
      wsum_congr fun j hj1 hj2 => by rw [hg4, byte_write16_ne _ _ _ (by omega) (by omega)]
    omega
  have p5 : wsum g5 26 4 + read16 g4 30 = wsum g4 26 4 + v.dst_ip / 65536 := by
    rw [hg5]
    exact wsum_write16 g4 _ (j := 2) (by omega) (by omega) (by rw [lg4]; omega)
  have p6 : wsum out 26 4 + read16 g5 32 = wsum g5 26 4 + v.dst_ip % 65536 := by
    rw [hout]
    exact wsum_write16 g5 _ (j := 3) (by omega) (by omega) (by rw [lg5]; omega)
  -- TCP segment word-sum bookkeeping
  have hseg20 : 20 ≤ seg := by omega
  have hsegend : L + seg ≤ f.length := by omega
  have eR1 : csumRegion g1 L seg + read16 f (L + 16) = csumRegion f L seg + c1v := by
    rw [hg1]
    exact csumRegion_write16 f c1v (j := 8) (by omega) (by omega) (by omega)
  have hrAg1 : read16 g1 (L + 16) = c1v := by
    rw [hg1]; exact read16_write16_self f c1v (by omega)
  have eR2 : csumRegion g2 L seg + c1v = csumRegion g1 L seg + c2v := by
    rw [hg2, ← hrAg1]
    exact csumRegion_write16 g1 c2v (j := 8) (by omega) (by omega) (by rw [lg1]; omega)
  have eR3 : csumRegion g3 L seg = csumRegion g2 L seg :=
    csumRegion_congr fun j hj1 hj2 => by rw [hg3, byte_write16_ne _ _ _ (by omega) (by omega)]
  have hrPg3 : read16 g3 (L + 2) = read16 f (L + 2) := by
    rw [hg3, read16_write16_ne _ _ _ (Or.inr (by omega)),
      hg2, read16_write16_ne _ _ _ (Or.inl (by omega)),
      hg1, read16_write16_ne _ _ _ (Or.inl (by omega))]
  have eR4 : csumRegion g4 L seg + read16 f (L + 2) = csumRegion g3 L seg + v.dst_port := by
    rw [hg4, ← hrPg3]
    exact csumRegion_write16 g3 _ (j := 1) (by omega) (by omega) (by rw [lg3]; omega)
  have eR5 : csumRegion g5 L seg = csumRegion g4 L seg :=
    csumRegion_congr fun j hj1 hj2 => by rw [hg5, byte_write16_ne _ _ _ (by omega) (by omega)]
  have eR6 : csumRegion out L seg = csumRegion g5 L seg :=
    csumRegion_congr fun j hj1 hj2 => by rw [hout, byte_write16_ne _ _ _ (by omega) (by omega)]
  have eTCP : wsum out 26 4 + byte f 23 + seg + csumRegion out L seg
      + read16 f (L + 16) + read16 f (L + 2) + read16 f 30 + read16 f 32 =
      (wsum f 26 4 + byte f 23 + seg + csumRegion f L seg)
      + c2v + v.dst_port + v.dst_ip / 65536 + v.dst_ip % 65536 := by
    omega
  have htcp0 : ((wsum f 26 4 + byte f 23 + seg + csumRegion f L seg : Nat) : ZMod 65535) = 0 :=
    cast_of_validSum htcp
  push_cast at htcp0
  have hc1lt : c1v < 65536 := by rw [hc1v]; exact csum_replace2_lt _ _ _
  have hc1z : ((c1v : Nat) : ZMod 65535) =
      ((read16 f (L + 16) : Nat) : ZMod 65535) + ((read16 f (L + 2) : Nat) : ZMod 65535)
        - ((v.dst_port : Nat) : ZMod 65535) := by
    rw [hc1v]
    exact csum_replace2_cast (read16_lt hw (L + 16)) (read16_lt hw (L + 2)) hvport
  have hc2z : ((c2v : Nat) : ZMod 65535) =
      ((c1v : Nat) : ZMod 65535) + ((read16 f 30 : Nat) : ZMod 65535)
        + ((read16 f 32 : Nat) : ZMod 65535)
        - ((v.dst_ip / 65536 : Nat) : ZMod 65535)
        - ((v.dst_ip % 65536 : Nat) : ZMod 65535) := by
    rw [hc2v]
    have h := csum_replace4_cast hc1lt (read32_lt hw 30) hvip
    rwa [read32_div hw, read32_mod _ hw] at h
  have eTCPz : ((wsum out 26 4 + byte f 23 + seg + csumRegion out L seg : Nat) :
      ZMod 65535) = 0 := by
    have hcast := congrArg (fun n : Nat => (n : ZMod 65535)) eTCP
    push_cast at hcast
    push_cast
    linear_combination hcast + hc2z + hc1z + htcp0
  have htcpOut : tcpChecksumOk out := by
    unfold tcpChecksumOk tcpTotalSum
    rw [hb14, hb23, hr16, ← hK, ← hT, ← hL, ← hseg]
    refine validSum_cast ?_ (by omega)
    push_cast
    push_cast at eTCPz
    linear_combination eTCPz
  exact ⟨haddr, hport, hipOut, htcpOut⟩

/-- C4: every malformed or not-applicable frame — shorter than the 14-byte
Ethernet header, ether-type other than IPv4, buffer shorter than the fixed
20-byte IPv4 header, IHL < 5, fewer than 2 bytes at the computed L4 offset,
a protocol other than TCP or UDP, or a buffer too short for the full TCP
(20-byte) or UDP (8-byte) header — gets verdict `TC_ACT_OK` with the buffer
byte-identical to the input. -/
theorem malformed_frame_passthrough (tbl : Portmap) (fl : Faults) (f : Frame)
    (h : f.length < 14 ∨ read16 f 12 ≠ 2048 ∨ f.length < 34 ∨ byte f 14 % 16 < 5 ∨
      f.length < 14 + byte f 14 % 16 * 4 + 2 ∨
      (byte f 23 ≠ 6 ∧ byte f 23 ≠ 17) ∨
      (byte f 23 = 6 ∧ f.length < 14 + byte f 14 % 16 * 4 + 20) ∨
      (byte f 23 = 17 ∧ f.length < 14 + byte f 14 % 16 * 4 + 8)) :
    drift_l4_ingress tbl fl f = (TC_ACT_OK, f) := by
  unfold drift_l4_ingress
  split_ifs <;> first
    | rfl
    | (exfalso; omega)

/-- C5: a well-formed IPv4/TCP or IPv4/UDP frame whose
`(protocol, destinationPort)` key has no portmap entry gets verdict
`TC_ACT_OK` with the buffer unchanged. -/
theorem no_policy_match_passthrough (tbl : Portmap) (fl : Faults) (f : Frame)
    (hty : read16 f 12 = 2048) (hlen : 34 ≤ f.length) (hihl : 5 ≤ byte f 14 % 16)
    (hp : (byte f 23 = 6 ∧ 14 + byte f 14 % 16 * 4 + 20 ≤ f.length) ∨
          (byte f 23 = 17 ∧ 14 + byte f 14 % 16 * 4 + 8 ≤ f.length))
    (hmiss : tbl ⟨byte f 23, 0, read16 f (14 + byte f 14 % 16 * 4 + 2)⟩ = none) :
    drift_l4_ingress tbl fl f = (TC_ACT_OK, f) := by
  unfold drift_l4_ingress
  rcases hp with ⟨hp6, hl⟩ | ⟨hp17, hl⟩
  · rw [hp6] at hmiss
    rw [if_neg (by omega), if_neg (by omega), if_neg (by omega), if_neg (by omega),
      if_neg (by omega), if_pos hp6, if_neg (by omega), hmiss]
  · rw [hp17] at hmiss
    rw [if_neg (by omega), if_neg (by omega), if_neg (by omega), if_neg (by omega),
      if_neg (by omega), if_neg (by omega), if_pos hp17, if_neg (by omega), hmiss]

/-- C6: the parser locates the L4 header at `ipHeaderOffset + IHL*4`, requires
2 bytes available there before reading any L4 field, and (for TCP) reads the
lookup port at that offset plus 2 — not at a hardcoded 20-byte header offset. -/
theorem l4_offset_uses_ihl (tbl : Portmap) (fl : Faults) (f : Frame)
    (hty : read16 f 12 = 2048) (hlen : 34 ≤ f.length) (hihl : 5 ≤ byte f 14 % 16) :
    (f.length < 14 + byte f 14 % 16 * 4 + 2 → drift_l4_ingress tbl fl f = (TC_ACT_OK, f)) ∧
    (byte f 23 = 6 → 14 + byte f 14 % 16 * 4 + 20 ≤ f.length →
      drift_l4_ingress tbl fl f =
        match tbl ⟨6, 0, read16 f (14 + byte f 14 % 16 * 4 + 2)⟩ with
        | none => (TC_ACT_OK, f)
        | some v => (TC_ACT_OK, rewrite_tcp fl f v.dst_ip v.dst_port 14
            (14 + byte f 14 % 16 * 4))) := by
  constructor
  · intro hshort
    unfold drift_l4_ingress
    rw [if_neg (by omega), if_neg (by omega), if_neg (by omega), if_neg (by omega),
      if_pos hshort]
  · intro hp6 hl
    unfold drift_l4_ingress
    rw [if_neg (by omega), if_neg (by omega), if_neg (by omega), if_neg (by omega),
      if_neg (by omega), if_pos hp6, if_neg (by omega)]

/-- C7: for every frame, portmap state and fault pattern, the entry point
returns the forward verdict `TC_ACT_OK`: no path drops a frame. -/
theorem ingress_never_drops (tbl : Portmap) (fl : Faults) (f : Frame) :
    (drift_l4_ingress tbl fl f).1 = TC_ACT_OK := by
  unfold drift_l4_ingress
  repeat' split
  all_goals rfl

/-- C9: the dataplane only ever consults the portmap at keys whose padding
byte is 0, so two tables agreeing on all zero-padded keys are
indistinguishable: a frame can only match an entry inserted at a key with
`pad = 0`. -/
theorem lookup_key_pad_is_zero (tbl tbl' : Portmap) (fl : Faults) (f : Frame)
    (h : ∀ k : portmap_key, k.pad = 0 → tbl k = tbl' k) :
    drift_l4_ingress tbl fl f = drift_l4_ingress tbl' fl f := by
  unfold drift_l4_ingress
  rw [h ⟨6, 0, read16 f (14 + byte f 14 % 16 * 4 + 2)⟩ rfl,
    h ⟨17, 0, read16 f (14 + byte f 14 % 16 * 4 + 2)⟩ rfl]

/-- C10: the parser never inspects the IPv4 fragment-offset/MF field (bytes
20–21): a frame that passes the length and protocol checks is looked up and
rewritten from the bytes at `14 + IHL*4` even when its fragment offset is
nonzero (a non-first fragment whose bytes there are payload, not a real
TCP/UDP header). -/
theorem fragment_fields_ignored (tbl : Portmap) (fl : Faults) (f : Frame) (v : portmap_value)
    (hty : read16 f 12 = 2048) (hlen : 34 ≤ f.length) (hihl : 5 ≤ byte f 14 % 16)
    (hfrag : read16 f 20 % 8192 ≠ 0)
    (hp : (byte f 23 = 6 ∧ 14 + byte f 14 % 16 * 4 + 20 ≤ f.length) ∨
          (byte f 23 = 17 ∧ 14 + byte f 14 % 16 * 4 + 8 ≤ f.length))
    (hhit : tbl ⟨byte f 23, 0, read16 f (14 + byte f 14 % 16 * 4 + 2)⟩ = some v) :
    drift_l4_ingress tbl fl f = (TC_ACT_OK,
      if byte f 23 = 6 then rewrite_tcp fl f v.dst_ip v.dst_port 14 (14 + byte f 14 % 16 * 4)
      else rewrite_udp fl f v.dst_ip v.dst_port 14 (14 + byte f 14 % 16 * 4)) := by
  rcases hp with ⟨hp6, hl⟩ | ⟨hp17, hl⟩
  · rw [if_pos hp6]
    rw [hp6] at hhit
    exact ingress_tcp_hit tbl fl f v hty hlen hihl hp6 hl hhit
  · rw [if_neg (by omega)]
    rw [hp17] at hhit
    exact ingress_udp_hit tbl fl f v hty hlen hihl hp17 hl hhit

/-- C3: for an IPv4/UDP frame with a matching entry whose UDP checksum field
is 0 ("checksum disabled"), the UDP checksum field of the output frame is
still exactly 0 after the rewrite, under every fault pattern: the incremental
updates are skipped and nothing else writes that field. -/
theorem udp_zero_checksum_stays_zero (tbl : Portmap) (fl : Faults) (f : Frame)
    (v : portmap_value)
    (hty : read16 f 12 = 2048) (hlen : 34 ≤ f.length) (hihl : 5 ≤ byte f 14 % 16)
    (hproto : byte f 23 = 17) (hl8 : 14 + byte f 14 % 16 * 4 + 8 ≤ f.length)
    (hhit : tbl ⟨17, 0, read16 f (14 + byte f 14 % 16 * 4 + 2)⟩ = some v)
    (hck : read16 f (14 + byte f 14 % 16 * 4 + 6) = 0) :
    read16 (drift_l4_ingress tbl fl f).2 (14 + byte f 14 % 16 * 4 + 6) = 0 := by
  rw [ingress_udp_hit tbl fl f v hty hlen hihl hproto hl8 hhit]
  dsimp only
  rw [rewrite_udp_zero_check fl f v.dst_ip v.dst_port (14 + byte f 14 % 16 * 4) hck]
  have hb1 : byte (rewrite_l3_and_store fl f (read32 f 30) v.dst_ip v.dst_port 14
        (14 + byte f 14 % 16 * 4)) (14 + byte f 14 % 16 * 4 + 6)
      = byte f (14 + byte f 14 % 16 * 4 + 6) :=
    byte_rls_ne fl f _ _ _ _ ⟨by omega, by omega⟩ (by omega) ⟨by omega, by omega⟩
  have hb2 : byte (rewrite_l3_and_store fl f (read32 f 30) v.dst_ip v.dst_port 14
        (14 + byte f 14 % 16 * 4)) (14 + byte f 14 % 16 * 4 + 6 + 1)
      = byte f (14 + byte f 14 % 16 * 4 + 6 + 1) :=
    byte_rls_ne fl f _ _ _ _ ⟨by omega, by omega⟩ (by omega) ⟨by omega, by omega⟩
  have heq : read16 (rewrite_l3_and_store fl f (read32 f 30) v.dst_ip v.dst_port 14
        (14 + byte f 14 % 16 * 4)) (14 + byte f 14 % 16 * 4 + 6)
      = read16 f (14 + byte f 14 % 16 * 4 + 6) := by
    unfold read16
    rw [hb1, hb2]
  rw [heq, hck]

/-- C8: a complete rewrite (matched entry, no helper failure) changes only
the IPv4 destination address, the L4 destination port, the IPv4 header
checksum and the L4 checksum field; every other byte — the rest of the
headers and all payload — and the frame length are unchanged. -/
theorem rewrite_touches_only_rewritten_fields (tbl : Portmap) (f : Frame) (v : portmap_value)
    (hty : read16 f 12 = 2048) (hlen : 34 ≤ f.length) (hihl : 5 ≤ byte f 14 % 16)
    (hp : (byte f 23 = 6 ∧ 14 + byte f 14 % 16 * 4 + 20 ≤ f.length) ∨
          (byte f 23 = 17 ∧ 14 + byte f 14 % 16 * 4 + 8 ≤ f.length))
    (hhit : tbl ⟨byte f 23, 0, read16 f (14 + byte f 14 % 16 * 4 + 2)⟩ = some v) :
    (drift_l4_ingress tbl noFaults f).2.length = f.length ∧
    ∀ i, ¬ rewrittenField (byte f 23) (14 + byte f 14 % 16 * 4) i →
      byte (drift_l4_ingress tbl noFaults f).2 i = byte f i := by
  rcases hp with ⟨hp6, hl⟩ | ⟨hp17, hl⟩
  · rw [hp6] at hhit
    rw [ingress_tcp_hit tbl noFaults f v hty hlen hihl hp6 hl hhit]
    dsimp only
    refine ⟨length_rewrite_tcp _ _ _ _ _ _, fun i hni => ?_⟩
    unfold rewrittenField at hni
    rw [hp6] at hni
    exact byte_rewrite_tcp_ne noFaults f _ _ _ ⟨by omega, by omega⟩ (by omega)
      ⟨by omega, by omega⟩ ⟨by omega, by omega⟩
  · rw [hp17] at hhit
    rw [ingress_udp_hit tbl noFaults f v hty hlen hihl hp17 hl hhit]
    dsimp only
    refine ⟨length_rewrite_udp _ _ _ _ _ _, fun i hni => ?_⟩
    unfold rewrittenField at hni
    rw [hp17] at hni
    exact byte_rewrite_udp_ne noFaults f _ _ _ ⟨by omega, by omega⟩ (by omega)
      ⟨by omega, by omega⟩ ⟨by omega, by omega⟩

/-- C2: the rewrite is not atomic.  Concrete failing run: `testFrameTcp`
matched by `testMap`, with the second helper call (the pseudo-header
`bpf_l4_csum_replace`) failing.  The resulting frame is neither byte-identical
to the input (the TCP checksum field was already rewritten) nor fully
rewritten (destination port and address still hold their old values): a
partially-mutated, checksum-inconsistent frame is forwarded. -/
theorem partial_rewrite_on_midway_failure :
    (drift_l4_ingress testMap faultSecond testFrameTcp).2 ≠ testFrameTcp ∧
    read16 (drift_l4_ingress testMap faultSecond testFrameTcp).2 36 = 8080 ∧
    read32 (drift_l4_ingress testMap faultSecond testFrameTcp).2 30 = 0x0a000002 ∧
    read16 (drift_l4_ingress testMap faultSecond testFrameTcp).2 50 ≠
      read16 testFrameTcp 50 := by
  decide

theorem tcp_rewrite_witness :
    Wf testFrameTcp ∧ ipChecksumOk testFrameTcp ∧ tcpChecksumOk testFrameTcp ∧
    (read32 (drift_l4_ingress testMap (fun _ => false) testFrameTcp).2 30 = 0x0a000005 ∧
     read16 (drift_l4_ingress testMap (fun _ => false) testFrameTcp).2
       (14 + byte testFrameTcp 14 % 16 * 4 + 2) = 80 ∧
     ipChecksumOk (drift_l4_ingress testMap (fun _ => false) testFrameTcp).2 ∧
     tcpChecksumOk (drift_l4_ingress testMap (fun _ => false) testFrameTcp).2) :=
  ⟨by decide, by decide, by decide,
    tcp_rewrite_gives_target_and_valid_checksums testMap testFrameTcp ⟨0x0a000005, 80⟩
      (by decide) (by decide) (by decide) (by decide) (by decide) (by decide)
      (by decide) (by decide) (by decide) (by decide) (by decide)⟩

theorem udp_zero_checksum_witness :
    read16 testFrameUdp (14 + byte testFrameUdp 14 % 16 * 4 + 6) = 0 ∧
    read16 (drift_l4_ingress testMapUdp noFaults testFrameUdp).2
      (14 + byte testFrameUdp 14 % 16 * 4 + 6) = 0 :=
  ⟨by decide,
    udp_zero_checksum_stays_zero testMapUdp noFaults testFrameUdp ⟨0xC0A80102, 5353⟩
      (by decide) (by decide) (by decide) (by decide) (by decide) (by decide) (by decide)⟩

theorem malformed_frame_witness :
    ([] : Frame).length < 14 ∧ drift_l4_ingress noneMap noFaults [] = (TC_ACT_OK, []) :=
  ⟨by decide, malformed_frame_passthrough noneMap noFaults [] (Or.inl (by decide))⟩

theorem no_policy_match_witness :
    noneMap ⟨byte testFrameTcp 23, 0,
      read16 testFrameTcp (14 + byte testFrameTcp 14 % 16 * 4 + 2)⟩ = none ∧
    drift_l4_ingress noneMap noFaults testFrameTcp = (TC_ACT_OK, testFrameTcp) :=
  ⟨rfl, no_policy_match_passthrough noneMap noFaults testFrameTcp
    (by decide) (by decide) (by decide) (Or.inl ⟨by decide, by decide⟩) rfl⟩

theorem l4_offset_uses_ihl_witness :
    byte testFrameIhl15 14 % 16 = 15 ∧
    ((testFrameIhl15.length < 14 + byte testFrameIhl15 14 % 16 * 4 + 2 →
        drift_l4_ingress testMap noFaults testFrameIhl15 = (TC_ACT_OK, testFrameIhl15)) ∧
     (byte testFrameIhl15 23 = 6 → 14 + byte testFrameIhl15 14 % 16 * 4 + 20 ≤
        testFrameIhl15.length →
      drift_l4_ingress testMap noFaults testFrameIhl15 =
        match testMap ⟨6, 0, read16 testFrameIhl15 (14 + byte testFrameIhl15 14 % 16 * 4 + 2)⟩
          with
        | none => (TC_ACT_OK, testFrameIhl15)
        | some v => (TC_ACT_OK, rewrite_tcp noFaults testFrameIhl15 v.dst_ip v.dst_port 14
            (14 + byte testFrameIhl15 14 % 16 * 4)))) :=
  ⟨by decide,
    l4_offset_uses_ihl testMap noFaults testFrameIhl15 (by decide) (by decide) (by decide)⟩

theorem lookup_key_pad_witness :
    drift_l4_ingress padMap noFaults testFrameTcp =
      drift_l4_ingress noneMap noFaults testFrameTcp :=
  lookup_key_pad_is_zero padMap noneMap noFaults testFrameTcp
    (fun k hk => by simp [padMap, noneMap, hk])

theorem fragment_fields_witness :
    read16 testFrameFrag 20 % 8192 ≠ 0 ∧
    drift_l4_ingress testMap noFaults testFrameFrag = (TC_ACT_OK,
      if byte testFrameFrag 23 = 6 then
        rewrite_tcp noFaults testFrameFrag 0x0a000005 80 14
          (14 + byte testFrameFrag 14 % 16 * 4)
      else
        rewrite_udp noFaults testFrameFrag 0x0a000005 80 14
          (14 + byte testFrameFrag 14 % 16 * 4)) :=
  ⟨by decide,
    fragment_fields_ignored testMap noFaults testFrameFrag ⟨0x0a000005, 80⟩
      (by decide) (by decide) (by decide) (by decide)
      (Or.inl ⟨by decide, by decide⟩) (by decide)⟩

theorem rewrite_fields_witness :
    (byte testFrameTcp 23 = 6 ∧
      14 + byte testFrameTcp 14 % 16 * 4 + 20 ≤ testFrameTcp.length) ∧
    ((drift_l4_ingress testMap noFaults testFrameTcp).2.length = testFrameTcp.length ∧
     ∀ i, ¬ rewrittenField (byte testFrameTcp 23) (14 + byte testFrameTcp 14 % 16 * 4) i →
       byte (drift_l4_ingress testMap noFaults testFrameTcp).2 i = byte testFrameTcp i) :=
  ⟨⟨by decide, by decide⟩,
    rewrite_touches_only_rewritten_fields testMap testFrameTcp ⟨0x0a000005, 80⟩
      (by decide) (by decide) (by decide) (Or.inl ⟨by decide, by decide⟩) (by decide)⟩

end DriftL4
